import Mathlib

set_option maxRecDepth 100000

/-!
# Verification of the solgen contract-interface generator core

A shallow embedding, in Lean 4, of the core of the `solgen` code generator:
the ABI byte-codec helpers (`decoding_helpers.go`, encoding helpers), the
type resolver and struct registry, the overload namer, and the per-contract
parse pipeline (`parser.go`), together with theorems about the properties
the design document states for them.

Modelling conventions:
- Go byte slices (`[]byte`) are `List Nat`, each element a byte value `< 256`.
- `*big.Int` values are `Nat` (unsigned) or `Int` (signed); `big.Int.SetBytes`
  is a big-endian fold, `big.Int.FillBytes` is `natToBeBytes`.
- Fallible Go functions returning `(T, error)` become `Except String T`.
- Go maps used as dictionaries become association lists with `List.lookup`;
  iteration order over a Go map is an arbitrary input list order.
- Strings are Lean `String`s; Go's byte-level string indexing is modelled on
  the `.data` character list (the inputs involved are ASCII).
- Recursive functions that the Go code runs on recursive type descriptors are
  defined with an explicit `Nat.rec` fuel parameter so that they are plain
  structural definitions; the fuel only bounds the recursion depth (any fuel
  at least the descriptor's depth reproduces the source exactly), and every
  theorem about them is uniform in the fuel.
-/

/-- `true` exactly when an `Except` result is an `error`. -/
def exceptIsErr {ε α : Type} : Except ε α → Bool
  | .error _ => true
  | .ok _ => false

/-- `true` exactly when an `Except` result is `ok`. -/
def exceptIsOk {ε α : Type} : Except ε α → Bool
  | .error _ => false
  | .ok _ => true

/-- Big-endian byte-list to natural number; models `big.Int.SetBytes` and the
Go accumulation loops `result = (result << 8) | data[i]`. -/
def beToNat (bs : List Nat) : Nat :=
  bs.foldl (fun acc b => acc * 256 + b) 0

/-- `k`-byte big-endian representation of `u`; models `big.Int.FillBytes`
into a buffer of `k` bytes (the value is truncated to `k` bytes, which never
happens on the call sites, where `u < 256^k`). -/
def natToBeBytes : Nat → Nat → List Nat
  | 0, _ => []
  | k + 1, u => natToBeBytes k (u / 256) ++ [u % 256]

theorem beToNat_append (xs : List Nat) (b : Nat) :
    beToNat (xs ++ [b]) = beToNat xs * 256 + b := by
  simp [beToNat, List.foldl_append]

theorem length_natToBeBytes (k u : Nat) : (natToBeBytes k u).length = k := by
  induction k generalizing u with
  | zero => simp [natToBeBytes]
  | succ k ih => simp [natToBeBytes, ih]

theorem beToNat_natToBeBytes (k u : Nat) (h : u < 256 ^ k) :
    beToNat (natToBeBytes k u) = u := by
  induction k generalizing u with
  | zero =>
    have hu : u = 0 := by simpa using h
    simp [natToBeBytes, beToNat, hu]
  | succ k ih =>
    have hlt : u / 256 < 256 ^ k := by
      have : (256 : Nat) ^ (k + 1) = 256 ^ k * 256 := by ring
      exact Nat.div_lt_of_lt_mul (by omega)
    rw [natToBeBytes, beToNat_append, ih (u / 256) hlt]
    omega

theorem headI_append_left {α : Type} [Inhabited α] (xs ys : List α) (h : xs ≠ []) :
    (xs ++ ys).headI = xs.headI := by
  cases xs with
  | nil => exact absurd rfl h
  | cons a l => rfl

theorem headI_natToBeBytes (k u : Nat) (h : 0 < k) :
    (natToBeBytes k u).headI = u / 256 ^ (k - 1) % 256 := by
  induction k generalizing u with
  | zero => omega
  | succ k ih =>
    cases k with
    | zero => simp [natToBeBytes]
    | succ k' =>
      rw [natToBeBytes, headI_append_left _ _ ?_, ih (u / 256) (by omega)]
      · simp only [Nat.add_sub_cancel, Nat.div_div_eq_div_mul]
        congr 2
        rw [← pow_succ']
      · have := length_natToBeBytes (k' + 1) (u / 256)
        intro hnil
        rw [hnil] at this
        simp at this

theorem natToBeBytes_all_ff (k : Nat) :
    natToBeBytes k (256 ^ k - 1) = List.replicate k 255 := by
  induction k with
  | zero => simp [natToBeBytes]
  | succ k ih =>
    have hpow : (0 : Nat) < 256 ^ k := Nat.pos_pow_of_pos k (by omega)
    have hdiv : (256 ^ (k + 1) - 1) / 256 = 256 ^ k - 1 := by
      have : (256 : Nat) ^ (k + 1) = 256 ^ k * 256 := by ring
      omega
    have hmod : (256 ^ (k + 1) - 1) % 256 = 255 := by
      have h2 : 256 ^ (k + 1) - 1 = (256 ^ k - 1) * 256 + 255 := by
        have : (256 : Nat) ^ (k + 1) = 256 ^ k * 256 := by ring
        omega
      omega
    rw [natToBeBytes, hdiv, hmod, ih, List.replicate_succ']

theorem testBit_of_lt_two_pow {a n i : Nat} (h : a < 2 ^ n) (hi : n ≤ i) :
    a.testBit i = false := by
  apply Nat.testBit_lt_two_pow
  calc a < 2 ^ n := h
    _ ≤ 2 ^ i := Nat.pow_le_pow_right (by omega) hi

theorem xor_two_pow_sub_one {n a : Nat} (h : a < 2 ^ n) :
    a ^^^ (2 ^ n - 1) = 2 ^ n - 1 - a := by
  apply Nat.eq_of_testBit_eq
  intro i
  have hsub : 2 ^ n - 1 - a = 2 ^ n - (a + 1) := by omega
  rw [Nat.testBit_xor, hsub, Nat.testBit_two_pow_sub_succ h, Nat.testBit_two_pow_sub_one]
  by_cases hi : i < n
  · simp [hi]
  · have hz : a.testBit i = false := testBit_of_lt_two_pow h (by omega)
    simp [hi, hz]

set_option maxRecDepth 100000 in
theorem byte_msb_iff : ∀ b : Nat, b < 256 → ((b &&& 128 != 0) = true ↔ 128 ≤ b) := by
  decide

/-! ## ABI decoding helpers (from `decoding_helpers.go`) -/

/-- `decodeUint256` decodes a uint256 from 32 bytes to a `Nat`
(`new(big.Int).SetBytes(data[:32])`). -/
def decodeUint256 (data : List Nat) : Except String Nat :=
  if data.length < 32 then .error "insufficient data for uint256"
  else .ok (beToNat (data.take 32))

/-- `decodeInt256` decodes a signed 256-bit integer from 32 bytes.  The source
sets `result = SetBytes(data[:32])`; if the MSB of `data[0]` is set it
computes `result.Xor(mask); result.Add(1); result.Neg()` with `mask = 2^256-1`. -/
def decodeInt256 (data : List Nat) : Except String Int :=
  if data.length < 32 then .error "insufficient data for int256"
  else if data.headI &&& 128 != 0 then
    .ok (-(((beToNat (data.take 32) ^^^ (2 ^ 256 - 1)) + 1 : Nat) : Int))
  else
    .ok (beToNat (data.take 32) : Int)

/-- `decodeAddress` copies `data[12:32]` into a 20-byte address. -/
def decodeAddress (data : List Nat) : Except String (List Nat) :=
  if data.length < 32 then .error "insufficient data for address"
  else .ok ((data.drop 12).take 20)

/-- `decodeBool` returns `data[31] != 0`. -/
def decodeBool (data : List Nat) : Except String Bool :=
  if data.length < 32 then .error "insufficient data for bool"
  else .ok (data.getD 31 0 != 0)

/-- `decodeHash` copies `data[:32]` into a 32-byte hash. -/
def decodeHash (data : List Nat) : Except String (List Nat) :=
  if data.length < 32 then .error "insufficient data for hash"
  else .ok (data.take 32)

/-- `decodeFixedBytes` copies `data[:size]` for fixed-size byte arrays. -/
def decodeFixedBytes (data : List Nat) (size : Nat) : Except String (List Nat) :=
  if data.length < 32 then .error "insufficient data for fixed bytes"
  else if 32 < size then .error "fixed bytes size too large"
  else .ok (data.take size)

/-- `decodeUint8`: 31 zero padding bytes checked, value is `data[31]`. -/
def decodeUint8 (data : List Nat) : Except String Nat :=
  if data.length < 32 then .error "insufficient data for uint8"
  else if (data.take 31).all (· == 0) then .ok (data.getD 31 0)
  else .error "invalid uint8 encoding"

/-- `decodeUint16`: 30 zero padding bytes checked, value is
`uint16(data[30])<<8 | uint16(data[31])`. -/
def decodeUint16 (data : List Nat) : Except String Nat :=
  if data.length < 32 then .error "insufficient data for uint16"
  else if (data.take 30).all (· == 0) then
    .ok ((data.getD 30 0) <<< 8 ||| data.getD 31 0)
  else .error "invalid uint16 encoding"

/-- `decodeUint32`: 28 zero padding bytes checked, value accumulated from
`data[28:32]` by `result = (result << 8) | data[i]`. -/
def decodeUint32 (data : List Nat) : Except String Nat :=
  if data.length < 32 then .error "insufficient data for uint32"
  else if (data.take 28).all (· == 0) then
    .ok (beToNat ((data.drop 28).take 4))
  else .error "invalid uint32 encoding"

/-- `decodeUint64`: 24 zero padding bytes checked, value accumulated from
`data[24:32]`. -/
def decodeUint64 (data : List Nat) : Except String Nat :=
  if data.length < 32 then .error "insufficient data for uint64"
  else if (data.take 24).all (· == 0) then
    .ok (beToNat ((data.drop 24).take 8))
  else .error "value exceeds uint64 range"

/-- Interpretation of a 64-bit pattern as a Go `int64` (two's complement). -/
def toInt64 (p : Nat) : Int :=
  if p < 2 ^ 63 then (p : Int) else (p : Int) - 2 ^ 64

/-- `decodeInt64` from the source: `isNegative := data[0]&0x80 != 0`; the 24
padding bytes must all equal `0xFF` (negative) or `0x00` (non-negative); the
value is accumulated from `data[24:32]` into an `int64` (wrapping), and if
`isNegative` the code then executes `result |= ^((1 << 32) - 1)`, i.e. ORs the
64-bit pattern with `0xFFFFFFFF00000000`. -/
def decodeInt64 (data : List Nat) : Except String Int :=
  if data.length < 32 then .error "insufficient data for int64"
  else
    let isNegative := data.headI &&& 128 != 0
    let expectedByte := if isNegative then 255 else 0
    if (data.take 24).all (· == expectedByte) then
      let p := beToNat ((data.drop 24).take 8)
      let p' := if isNegative then p ||| 0xFFFFFFFF00000000 else p
      .ok (toInt64 p')
    else .error "value exceeds int64 range"

/-- `decodeBytes` decodes dynamic bytes: a 32-byte length at `offset`, then
the contents, returning the value and the next offset (length padded to a
multiple of 32). -/
def decodeBytes (data : List Nat) (offset : Nat) : Except String (List Nat × Nat) :=
  if data.length < offset + 32 then .error "insufficient data for bytes length"
  else
    match decodeUint256 ((data.drop offset).take 32) with
    | .error e => .error ("decoding bytes length: " ++ e)
    | .ok lengthBig =>
      if 2 ^ 64 ≤ lengthBig then .error "bytes length too large"
      else if data.length < offset + 32 + lengthBig then
        .error "insufficient data for bytes content"
      else
        .ok ((data.drop (offset + 32)).take lengthBig,
             offset + 32 + (lengthBig + 31) / 32 * 32)

/-- `decodeString` decodes a string from dynamic bytes (the byte contents are
returned; Go converts them with `string(bytes)`). -/
def decodeString (data : List Nat) (offset : Nat) : Except String (List Nat × Nat) :=
  decodeBytes data offset

/-! ## ABI encoding helpers (from the encoding helpers template) -/

/-- `encodeInt256` encodes a signed 256-bit integer to 32 bytes using two's
complement.  The source guard is `v.BitLen() >= 256` (`big.Int.BitLen` of the
absolute value, modelled by `Nat.size`); non-negative values are filled
directly, negative values are encoded as
`(|v| - 1) XOR (2^256 - 1)` and filled big-endian. -/
def encodeInt256 (v : Int) : Except String (List Nat) :=
  if 256 ≤ Nat.size v.natAbs then .error "value too large for int256"
  else if 0 ≤ v then .ok (natToBeBytes 32 v.toNat)
  else .ok (natToBeBytes 32 ((v.natAbs - 1) ^^^ (2 ^ 256 - 1)))

theorem take_natToBeBytes (k u : Nat) : (natToBeBytes k u).take k = natToBeBytes k u :=
  List.take_of_length_le (le_of_eq (length_natToBeBytes k u))

theorem pow256_31 : (256 : Nat) ^ 31 = 2 ^ 248 := by norm_num

theorem pow256_32 : (256 : Nat) ^ 32 = 2 ^ 256 := by norm_num

theorem decodeInt256_natToBeBytes (u : Nat) (h : u < 2 ^ 256) :
    decodeInt256 (natToBeBytes 32 u) =
      if 2 ^ 255 ≤ u then .ok ((u : Int) - 2 ^ 256) else .ok (u : Int) := by
  have hlen : (natToBeBytes 32 u).length = 32 := length_natToBeBytes 32 u
  have hb : (natToBeBytes 32 u).headI = u / 2 ^ 248 := by
    rw [headI_natToBeBytes 32 u (by omega)]
    have h31 : (32 : Nat) - 1 = 31 := rfl
    rw [h31, pow256_31]
    apply Nat.mod_eq_of_lt
    apply Nat.div_lt_of_lt_mul
    calc u < 2 ^ 256 := h
      _ = 2 ^ 248 * 256 := by norm_num
  have hdivlt : u / 2 ^ 248 < 256 := by
    apply Nat.div_lt_of_lt_mul
    calc u < 2 ^ 256 := h
      _ = 2 ^ 248 * 256 := by norm_num
  have hmsb : (128 ≤ u / 2 ^ 248) ↔ 2 ^ 255 ≤ u := by
    rw [Nat.le_div_iff_mul_le (by positivity)]
    constructor <;> intro hx <;> omega
  unfold decodeInt256
  rw [if_neg (by omega), take_natToBeBytes,
      beToNat_natToBeBytes 32 u (by rw [pow256_32]; exact h), hb]
  by_cases hcase : 2 ^ 255 ≤ u
  · have hcond : (u / 2 ^ 248 &&& 128 != 0) = true :=
      (byte_msb_iff _ hdivlt).mpr (hmsb.mpr hcase)
    rw [if_pos hcond, if_pos hcase]
    have hxor : u ^^^ (2 ^ 256 - 1) = 2 ^ 256 - 1 - u := xor_two_pow_sub_one h
    rw [hxor]
    have hvalue : (-((2 ^ 256 - 1 - u + 1 : Nat) : Int)) = (u : Int) - 2 ^ 256 := by
      omega
    rw [hvalue]
  · have hcond : ¬ ((u / 2 ^ 248 &&& 128 != 0) = true) := by
      intro hc
      exact hcase (hmsb.mp ((byte_msb_iff _ hdivlt).mp hc))
    rw [if_neg hcond, if_neg hcase]

theorem encodeInt256_ok (v : Int) (h : v.natAbs < 2 ^ 255) :
    encodeInt256 v =
      .ok (natToBeBytes 32 (if 0 ≤ v then v.toNat else (2 ^ 256 + v).toNat)) := by
  have hguard : ¬ 256 ≤ Nat.size v.natAbs := by
    intro hc
    have hsz : Nat.size v.natAbs ≤ 256 := Nat.size_le.mpr (by
      calc v.natAbs < 2 ^ 255 := h
        _ < 2 ^ 256 := by norm_num)
    have hsz2 : Nat.size v.natAbs ≤ 255 := Nat.size_le.mpr h
    omega
  unfold encodeInt256
  rw [if_neg hguard]
  by_cases hv : 0 ≤ v
  · rw [if_pos hv, if_pos hv]
  · rw [if_neg hv, if_neg hv]
    congr 2
    have habs : (1 : Nat) ≤ v.natAbs := by omega
    have hxor : (v.natAbs - 1) ^^^ (2 ^ 256 - 1) = 2 ^ 256 - 1 - (v.natAbs - 1) :=
      xor_two_pow_sub_one (by omega)
    rw [hxor]
    omega

theorem encodeInt256_err (v : Int) (h : 2 ^ 255 ≤ v.natAbs) :
    encodeInt256 v = .error "value too large for int256" := by
  have hguard : 256 ≤ Nat.size v.natAbs := Nat.lt_size.mpr h
  unfold encodeInt256
  rw [if_pos hguard]

theorem except_bind_ok {ε α β : Type} (a : α) (f : α → Except ε β) :
    (Except.ok a : Except ε α).bind f = f a := rfl

theorem encode_decode_int256 (x : Int) (h1 : -(2 ^ 255) < x) (h2 : x < 2 ^ 255) :
    (encodeInt256 x).bind decodeInt256 = .ok x := by
  have habs : x.natAbs < 2 ^ 255 := by omega
  rw [encodeInt256_ok x habs, except_bind_ok]
  by_cases hx : 0 ≤ x
  · rw [if_pos hx]
    have hu : x.toNat < 2 ^ 256 := by omega
    rw [decodeInt256_natToBeBytes _ hu, if_neg (by omega)]
    congr 1
    omega
  · rw [if_neg hx]
    have hu : (2 ^ 256 + x).toNat < 2 ^ 256 := by omega
    rw [decodeInt256_natToBeBytes _ hu, if_pos (by omega)]
    congr 1
    omega

/-! ## Data model of the generated Go types (`internal/types/types.go`) -/

deriving instance DecidableEq for Except

/-- `types.GoType`: a Go type mapping (field `Import` is `imp` here, a Lean
keyword otherwise). -/
structure GoType where
  imp : String
  typeName : String
  isSlice : Bool
  isPtr : Bool
deriving DecidableEq

def GoTypeBool : GoType := ⟨"", "bool", false, false⟩

def GoTypeString : GoType := ⟨"", "string", false, false⟩

def GoTypeBytes : GoType := ⟨"", "[]byte", false, false⟩

def GoTypeBigInt : GoType := ⟨"math/big", "*big.Int", false, true⟩

def GoTypeAddress : GoType := ⟨"github.com/ethereum/go-ethereum/common", "common.Address", false, false⟩

def GoTypeHash : GoType := ⟨"github.com/ethereum/go-ethereum/common", "common.Hash", false, false⟩

def GoTypeUint8 : GoType := ⟨"", "uint8", false, false⟩

def GoTypeUint16 : GoType := ⟨"", "uint16", false, false⟩

def GoTypeUint32 : GoType := ⟨"", "uint32", false, false⟩

def GoTypeUint64 : GoType := ⟨"", "uint64", false, false⟩

def GoTypeInt8 : GoType := ⟨"", "int8", false, false⟩

def GoTypeInt16 : GoType := ⟨"", "int16", false, false⟩

def GoTypeInt32 : GoType := ⟨"", "int32", false, false⟩

def GoTypeInt64 : GoType := ⟨"", "int64", false, false⟩

/-- `types.StructField`. -/
structure StructField where
  name : String
  type : GoType
  jsonTag : String
deriving DecidableEq

/-- `types.Struct`: a generated Go struct. -/
structure StructDef where
  name : String
  fields : List StructField
deriving DecidableEq

/-- The struct registry (`structRegistry.structs`, a Go map from struct name
to definition), modelled as an association list looked up by name. -/
abbrev Registry := List (String × StructDef)

/-- Go map lookup on a string-keyed association list. -/
def lookupStr {α : Type} (k : String) : List (String × α) → Option α
  | [] => none
  | (k', v) :: rest => if k = k' then some v else lookupStr k rest

/-- `abi.Type` descriptors, restricted to the constructors the parser
handles; `functionTy` stands for any descriptor hitting the
`unsupported ABI type` default case. -/
inductive AbiType where
  | boolTy
  | stringTy
  | bytesTy
  | addressTy
  | hashTy
  | uintTy (size : Nat)
  | intTy (size : Nat)
  | fixedBytesTy (size : Nat)
  | sliceTy (elem : AbiType)
  | arrayTy (size : Nat) (elem : AbiType)
  | tupleTy (rawName : String) (rawNames : List String) (elems : List AbiType)
  | functionTy

/-! ## String helpers (ASCII models of the `strings` operations used) -/

def asciiToUpperChar (c : Char) : Char :=
  if 'a' ≤ c ∧ c ≤ 'z' then Char.ofNat (c.toNat - 32) else c

def asciiToLowerChar (c : Char) : Char :=
  if 'A' ≤ c ∧ c ≤ 'Z' then Char.ofNat (c.toNat + 32) else c

/-- `strings.ToLower` on the ASCII identifiers involved. -/
def asciiToLower (s : String) : String :=
  String.mk (s.data.map asciiToLowerChar)

/-- `exportIdentifier`: strip one leading underscore, then uppercase the
first character; empty input (before or after stripping) becomes `Field`. -/
def exportIdentifier (name : String) : String :=
  match name.data with
  | [] => "Field"
  | '_' :: rest =>
    match rest with
    | [] => "Field"
    | c :: cs => String.mk (asciiToUpperChar c :: cs)
  | c :: cs => String.mk (asciiToUpperChar c :: cs)

/-- `strings.Split` on a single separator character. -/
def splitOnChar (sep : Char) : List Char → List (List Char)
  | [] => [[]]
  | c :: cs =>
    if c = sep then [] :: splitOnChar sep cs
    else
      match splitOnChar sep cs with
      | [] => [[c]]
      | w :: ws => (c :: w) :: ws

def isUpperAZ (c : Char) : Bool := 'A' ≤ c && c ≤ 'Z'

def isLowerAZ (c : Char) : Bool := 'a' ≤ c && c ≤ 'z'

/-- The right-to-left scan of `extractStructName`: the suffix starting at the
rightmost lowercase-to-uppercase transition, if any. -/
def scanUpperTransition : List Char → Option (List Char)
  | [] => none
  | [_] => none
  | a :: b :: rest =>
    match scanUpperTransition (b :: rest) with
    | some suffix => some suffix
    | none => if isLowerAZ a && isUpperAZ b then some (b :: rest) else none

/-- `extractStructName`: strip a `struct ` prefix, take the last `.`-segment
if a dot exists, otherwise scan for a lowercase-to-uppercase transition,
otherwise use the full raw name; empty input stays empty. -/
def extractStructName (rawName : String) : String :=
  if rawName = "" then ""
  else
    let rawL := if "struct ".data.isPrefixOf rawName.data
                then rawName.data.drop 7 else rawName.data
    let parts := splitOnChar '.' rawL
    if 1 < parts.length then exportIdentifier (String.mk (parts.getLastD []))
    else
      match scanUpperTransition rawL with
      | some suffix => exportIdentifier (String.mk suffix)
      | none => exportIdentifier (String.mk rawL)

def sanitizeChar (first : Bool) (r : Char) : Char :=
  if ('a' ≤ r && r ≤ 'z') || ('A' ≤ r && r ≤ 'Z') ||
     (!first && '0' ≤ r && r ≤ '9') || r = '_' then r else '_'

def sanitizeLoop : List Char → Bool → List Char
  | [], _ => []
  | c :: cs, first => sanitizeChar first c :: sanitizeLoop cs false

/-- `sanitizeIdentifier`: keep letters, underscores, and non-leading digits,
replace everything else by `_`; empty or digit-leading results are prefixed
with `Field_`. -/
def sanitizeIdentifier (name : String) : String :=
  if name = "" then "Field"
  else
    let id := String.mk (sanitizeLoop name.data true)
    match id.data with
    | [] => "Field_" ++ id
    | c :: _ => if '0' ≤ c && c ≤ '9' then "Field_" ++ id else id

/-! ## Type resolver (`mapSolidityToGoType…` and the struct registry) -/

/-- `mapUintType`. -/
def mapUintType (size : Nat) : GoType :=
  if size = 8 then GoTypeUint8
  else if size = 16 then GoTypeUint16
  else if size = 32 then GoTypeUint32
  else if size = 64 then GoTypeUint64
  else GoTypeBigInt

/-- `mapIntType`. -/
def mapIntType (size : Nat) : GoType :=
  if size = 8 then GoTypeInt8
  else if size = 16 then GoTypeInt16
  else if size = 32 then GoTypeInt32
  else if size = 64 then GoTypeInt64
  else GoTypeBigInt

/-- The non-recursive cases of `mapSolidityToGoType` (the recursive slice,
array and tuple cases are handled by their callers before reaching this). -/
def mapLeafType : AbiType → Except String GoType
  | .boolTy => .ok GoTypeBool
  | .stringTy => .ok GoTypeString
  | .bytesTy => .ok GoTypeBytes
  | .addressTy => .ok GoTypeAddress
  | .hashTy => .ok GoTypeHash
  | .uintTy size => if size ≤ 64 then .ok (mapUintType size) else .ok GoTypeBigInt
  | .intTy size => if size ≤ 64 then .ok (mapIntType size) else .ok GoTypeBigInt
  | .fixedBytesTy size => .ok ⟨"", "[" ++ toString size ++ "]byte", false, false⟩
  | _ => .error "unsupported ABI type"

/-- The field-building loop of `registerStruct`: converts tuple elements to
struct fields with the given resolver, threading the registry; a field whose
type fails to resolve is skipped (`continue`). -/
def buildFieldList (resolver : AbiType → Registry → Registry × Except String GoType) :
    List AbiType → List String → Nat → Registry → List StructField × Registry
  | [], _, _, r => ([], r)
  | elemType :: rest, rawNames, i, r =>
    match resolver elemType r with
    | (r', .error _) => buildFieldList resolver rest rawNames (i + 1) r'
    | (r', .ok goType) =>
      let fieldName := if i < rawNames.length ∧ rawNames.getD i "" ≠ ""
                       then exportIdentifier (rawNames.getD i "")
                       else "Field" ++ toString (i + 1)
      let (fields, r'') := buildFieldList resolver rest rawNames (i + 1) r'
      (⟨fieldName, goType, asciiToLower fieldName⟩ :: fields, r'')

/-- `structRegistry.registerStruct`: skip empty and `AnonymousTuple` names,
skip names already present, otherwise build the fields and insert. -/
def registerStruct (resolver : AbiType → Registry → Registry × Except String GoType)
    (r : Registry) (structName : String) (rawNames : List String)
    (elems : List AbiType) : Registry :=
  if structName = "" || structName = "AnonymousTuple" then r
  else if (lookupStr structName r).isSome then r
  else
    let p := buildFieldList resolver elems rawNames 0 r
    p.2 ++ [(structName, ⟨structName, p.1⟩)]

/-- One unfolding of `mapSolidityToGoTypeWithRegistry`, parameterized by the
resolver used for element and field types. -/
def resolveStep (rec : AbiType → Registry → Registry × Except String GoType)
    (t : AbiType) (r : Registry) : Registry × Except String GoType :=
  match t with
  | .sliceTy elem =>
    match rec elem r with
    | (r', .error e) => (r', .error ("mapping slice element type: " ++ e))
    | (r', .ok elemType) => (r', .ok ⟨elemType.imp, "[]" ++ elemType.typeName, true, false⟩)
  | .arrayTy size elem =>
    match rec elem r with
    | (r', .error e) => (r', .error ("mapping array element type: " ++ e))
    | (r', .ok elemType) =>
      (r', .ok ⟨elemType.imp, "[" ++ toString size ++ "]" ++ elemType.typeName, false, false⟩)
  | .tupleTy rawName rawNames elems =>
    let sn0 := extractStructName rawName
    let structName := if sn0 = "" then "AnonymousTuple" else sn0
    (registerStruct rec r structName rawNames elems, .ok ⟨"", structName, false, false⟩)
  | other => (r, mapLeafType other)

/-- `mapSolidityToGoTypeWithRegistry`: resolve one descriptor, registering
encountered tuple structs.  The explicit `fuel` parameter (plain `Nat.rec`,
so concrete applications evaluate in the kernel) only bounds the recursion
depth of the source function, which recurses structurally on the descriptor;
any `fuel` at least the descriptor's depth reproduces the source exactly,
and every theorem below is uniform in `fuel`. -/
def mapSolidityToGoTypeWithRegistry (fuel : Nat) :
    AbiType → Registry → Registry × Except String GoType :=
  Nat.rec (motive := fun _ => AbiType → Registry → Registry × Except String GoType)
    (fun _ r => (r, .error "recursion limit"))
    (fun _ ih => resolveStep ih) fuel

/-- One unfolding of the registry-free `mapSolidityToGoType`. -/
def mapGoStep (rec : AbiType → Except String GoType) (t : AbiType) :
    Except String GoType :=
  match t with
  | .sliceTy elem =>
    match rec elem with
    | .error e => .error ("mapping slice element type: " ++ e)
    | .ok elemType => .ok ⟨elemType.imp, "[]" ++ elemType.typeName, true, false⟩
  | .arrayTy size elem =>
    match rec elem with
    | .error e => .error ("mapping array element type: " ++ e)
    | .ok elemType =>
      .ok ⟨elemType.imp, "[" ++ toString size ++ "]" ++ elemType.typeName, false, false⟩
  | .tupleTy rawName _ _ =>
    let sn0 := extractStructName rawName
    .ok ⟨"", if sn0 = "" then "AnonymousTuple" else sn0, false, false⟩
  | other => mapLeafType other

/-- `mapSolidityToGoType` (the registry-free variant used by
`parseParameters`/`parseErrors`), with the same explicit recursion fuel as
`mapSolidityToGoTypeWithRegistry`. -/
def mapSolidityToGoType (fuel : Nat) : AbiType → Except String GoType :=
  Nat.rec (motive := fun _ => AbiType → Except String GoType)
    (fun _ => .error "recursion limit")
    (fun _ ih => mapGoStep ih) fuel

/-- Byte-wise (ASCII) lexicographic string comparison, as Go's `<` on
strings. -/
def charListLt : List Char → List Char → Bool
  | [], [] => false
  | [], _ :: _ => true
  | _ :: _, [] => false
  | a :: as, b :: bs =>
    if a.toNat < b.toNat then true
    else if b.toNat < a.toNat then false
    else charListLt as bs

def strLt (a b : String) : Bool := charListLt a.data b.data

/-- Insertion step of the model of `sort.Slice`. -/
def insertSorted {α : Type} (less : α → α → Bool) (a : α) : List α → List α
  | [] => [a]
  | b :: l => if less b a then b :: insertSorted less a l else a :: b :: l

/-- Deterministic comparison sort modelling `sort.Slice` with a strict
`less` function. -/
def sortByLess {α : Type} (less : α → α → Bool) : List α → List α
  | [] => []
  | a :: l => insertSorted less a (sortByLess less l)

/-- `structRegistry.getAllStructs`: all registered structs, sorted by name
for deterministic output. -/
def getAllStructs (r : Registry) : List StructDef :=
  sortByLess (fun a b => strLt a.name b.name) (r.map (fun kv => kv.2))

/-! ## Overload namer (`generateOverloadName`, `normalizeTypeForNaming`) -/

def isSpaceGo (c : Char) : Bool := c = ' ' || c = '\t' || c = '\n' || c = '\r'

/-- `strings.TrimSpace` (ASCII whitespace). -/
def trimSpace (cs : List Char) : List Char :=
  ((cs.dropWhile isSpaceGo).reverse.dropWhile isSpaceGo).reverse

/-- `strings.Join` with a single separator character. -/
def joinWithChar (sep : Char) : List (List Char) → List Char
  | [] => []
  | [w] => w
  | w :: ws => w ++ sep :: joinWithChar sep ws

/-- One unfolding of `normalizeTypeForNaming`: dynamic arrays append `Array`,
fixed arrays append `FixedArray`, the common names are capitalized, width
prefixes `uint`/`int`/`bytes` become `Uint`/`Int`/`Bytes` plus the suffix,
and everything else gets its first letter capitalized. -/
def normalizeTypeStep (rec : List Char → List Char) (cs : List Char) : List Char :=
  if ['[', ']'].isSuffixOf cs then rec (cs.dropLast.dropLast) ++ "Array".data
  else if cs.contains '[' && cs.contains ']' then
    rec (cs.takeWhile (fun c => !(c = '['))) ++ "FixedArray".data
  else if cs = "uint256".data then "Uint256".data
  else if cs = "address".data then "Address".data
  else if cs = "bool".data then "Bool".data
  else if cs = "string".data then "String".data
  else if cs = "bytes".data then "Bytes".data
  else if "uint".data.isPrefixOf cs && cs.drop 4 ≠ [] then "Uint".data ++ cs.drop 4
  else if "int".data.isPrefixOf cs && cs.drop 3 ≠ [] then "Int".data ++ cs.drop 3
  else if "bytes".data.isPrefixOf cs && cs.drop 5 ≠ [] then "Bytes".data ++ cs.drop 5
  else (exportIdentifier (String.mk cs)).data

/-- `normalizeTypeForNaming` with explicit recursion fuel (the recursion is
on strictly shorter strings, so any fuel above the length suffices; the
callers below pass `length + 1`). -/
def normalizeTypeForNaming (fuel : Nat) : List Char → List Char :=
  Nat.rec (motive := fun _ => List Char → List Char)
    (fun cs => cs)
    (fun _ ih => normalizeTypeStep ih) fuel

/-- `generateOverloadName`: parameter types are read from the canonical
signature between the first `(` and the first `)`; zero parameters give the
`_NoArgs` suffix; a candidate longer than 50 characters falls back to
`baseName ++ "__" ++ selector[2:]`, as does a malformed signature. -/
def generateOverloadName (baseName signature selector : String) : String :=
  match (signature.data.findIdx? (fun c => c = '(')),
        (signature.data.findIdx? (fun c => c = ')')) with
  | some s, some e =>
    if e ≤ s then baseName ++ "__" ++ String.mk (selector.data.drop 2)
    else
      let paramStr := (signature.data.drop (s + 1)).take (e - s - 1)
      if paramStr = [] then baseName ++ "_NoArgs"
      else
        let params := splitOnChar ',' paramStr
        let normalizedParams := params.map (fun p =>
          let q := trimSpace p
          normalizeTypeForNaming (q.length + 1) q)
        let candidate := baseName ++ "_" ++ String.mk (joinWithChar '_' normalizedParams)
        if 50 < candidate.data.length then
          baseName ++ "__" ++ String.mk (selector.data.drop 2)
        else candidate
  | _, _ => baseName ++ "__" ++ String.mk (selector.data.drop 2)

/-! ## Parse pipeline (`parser.go`) -/

/-- An `abi.Argument` as the parser reads it. -/
structure AbiArg where
  name : String
  type : AbiType
  indexed : Bool

/-- An entry of `parsedABI.Methods` as the parser reads it (`Name` and
`Sig`); iteration order over the Go map is the list order. -/
structure AbiMethod where
  name : String
  sig : String
  inputs : List AbiArg
  outputs : List AbiArg

/-- An entry of `parsedABI.Events`. -/
structure AbiEvent where
  name : String
  sig : String
  inputs : List AbiArg

/-- An entry of `parsedABI.Errors`. -/
structure AbiError where
  name : String
  sig : String
  inputs : List AbiArg

/-- `types.Parameter`. -/
structure Parameter where
  name : String
  type : GoType
  indexed : Bool
deriving DecidableEq

/-- `types.Method` (the `ABI` mirror field is omitted). -/
structure MethodModel where
  name : String
  signature : String
  selector : String
  inputs : List Parameter
  outputs : List Parameter
  inputStruct : Option StructDef
  outputStruct : Option StructDef
deriving DecidableEq

/-- `types.Event`. -/
structure EventModel where
  name : String
  topic : List Nat
  inputs : List Parameter
  eventStruct : StructDef
deriving DecidableEq

/-- `types.ContractError`. -/
structure ContractErrorModel where
  name : String
  signature : String
  selector : String
  inputs : List Parameter
  errorStruct : StructDef
deriving DecidableEq

/-- The methods/events/errors/structs part of `types.Contract` built by
`parseContract`. -/
structure ContractModel where
  methods : List MethodModel
  events : List EventModel
  errors : List ContractErrorModel
  structs : List StructDef
deriving DecidableEq

/-- `parametersToFields`. -/
def parametersToFields (params : List Parameter) : List StructField :=
  params.map (fun p => ⟨exportIdentifier p.name, p.type, asciiToLower p.name⟩)

/-- The loop of `parseParametersWithRegistry`: names default to
`Field<i+1>`, are sanitized, and `indexed` is kept only when allowed. -/
def parseParamsLoop (fuel : Nat) (allowIndexed : Bool) :
    List AbiArg → Nat → Registry → Registry × Except String (List Parameter)
  | [], _, r => (r, .ok [])
  | arg :: rest, i, r =>
    match mapSolidityToGoTypeWithRegistry fuel arg.type r with
    | (r', .error e) => (r', .error ("mapping type: " ++ e))
    | (r', .ok goType) =>
      let name := if arg.name = "" then "Field" ++ toString (i + 1) else arg.name
      let param : Parameter := ⟨sanitizeIdentifier name, goType, allowIndexed && arg.indexed⟩
      match parseParamsLoop fuel allowIndexed rest (i + 1) r' with
      | (r'', .error e) => (r'', .error e)
      | (r'', .ok params) => (r'', .ok (param :: params))

/-- `parseParametersWithRegistry`. -/
def parseParametersWithRegistry (fuel : Nat) (args : List AbiArg)
    (allowIndexed : Bool) (r : Registry) :
    Registry × Except String (List Parameter) :=
  parseParamsLoop fuel allowIndexed args 0 r

/-- The loop of the registry-free `parseParameters`. -/
def parseParamsPlainLoop (fuel : Nat) (allowIndexed : Bool) :
    List AbiArg → Nat → Except String (List Parameter)
  | [], _ => .ok []
  | arg :: rest, i =>
    match mapSolidityToGoType fuel arg.type with
    | .error e => .error ("mapping type: " ++ e)
    | .ok goType =>
      let name := if arg.name = "" then "Field" ++ toString (i + 1) else arg.name
      let param : Parameter := ⟨sanitizeIdentifier name, goType, allowIndexed && arg.indexed⟩
      match parseParamsPlainLoop fuel allowIndexed rest (i + 1) with
      | .error e => .error e
      | .ok params => .ok (param :: params)

/-- `parseParameters`. -/
def parseParameters (fuel : Nat) (args : List AbiArg) (allowIndexed : Bool) :
    Except String (List Parameter) :=
  parseParamsPlainLoop fuel allowIndexed args 0

/-- The overload-detection count: how many entries of `parsedABI.Methods`
share a `Name` (`methodNames[method.Name]`). -/
def methodNameCount (methods : List AbiMethod) (name : String) : Nat :=
  (methods.filter (fun m => decide (m.name = name))).length

/-- The `sort.Slice` comparison of `parseMethodsWithRegistry`:
`(Name, Signature)` lexicographically. -/
def methodLess (a b : MethodModel) : Bool :=
  if a.name = b.name then strLt a.signature b.signature
  else strLt a.name b.name

/-- The second pass of `parseMethodsWithRegistry`: selector lookup in the
`MethodIdentifiers` table (empty string when missing is a hard error),
overload renaming when the base name is shared, parameter resolution
threading the registry, and input/output struct synthesis. -/
def parseMethodsLoop (fuel : Nat) (allMethods : List AbiMethod)
    (methodIds : List (String × String)) :
    List AbiMethod → Registry → Registry × Except String (List MethodModel)
  | [], r => (r, .ok [])
  | m :: rest, r =>
    let selector := (lookupStr m.sig methodIds).getD ""
    if selector = "" then (r, .error ("missing method identifier for " ++ m.sig))
    else
      let methodName := if 1 < methodNameCount allMethods m.name
                        then generateOverloadName m.name m.sig selector
                        else m.name
      match parseParametersWithRegistry fuel m.inputs false r with
      | (r', .error e) => (r', .error ("parsing inputs for method " ++ m.sig ++ ": " ++ e))
      | (r', .ok inputs) =>
        match parseParametersWithRegistry fuel m.outputs false r' with
        | (r'', .error e) => (r'', .error ("parsing outputs for method " ++ m.sig ++ ": " ++ e))
        | (r'', .ok outputs) =>
          let inputStruct := if 1 < inputs.length
            then some (⟨exportIdentifier methodName ++ "Input", parametersToFields inputs⟩ : StructDef)
            else none
          let outputStruct := if 1 < outputs.length
            then some (⟨exportIdentifier methodName ++ "Output", parametersToFields outputs⟩ : StructDef)
            else none
          let meth : MethodModel :=
            ⟨methodName, m.sig, "0x" ++ selector, inputs, outputs, inputStruct, outputStruct⟩
          match parseMethodsLoop fuel allMethods methodIds rest r'' with
          | (rf, .error e) => (rf, .error e)
          | (rf, .ok ms) => (rf, .ok (meth :: ms))

/-- `parseMethodsWithRegistry`: the loop above followed by the
deterministic `(Name, Signature)` sort. -/
def parseMethodsWithRegistry (fuel : Nat) (methods : List AbiMethod)
    (methodIds : List (String × String)) (r : Registry) :
    Registry × Except String (List MethodModel) :=
  match parseMethodsLoop fuel methods methodIds methods r with
  | (r', .error e) => (r', .error e)
  | (r', .ok ms) => (r', .ok (sortByLess methodLess ms))

/-- The loop of `parseEventsWithRegistry`: topic from the external hash of
the canonical signature, inputs resolved with the registry, and the
per-event struct named `<Name>Event`.  Note: no sort follows this loop in
the source. -/
def parseEventsLoop (fuel : Nat) (hash : String → List Nat) :
    List AbiEvent → Registry → Registry × Except String (List EventModel)
  | [], r => (r, .ok [])
  | e :: rest, r =>
    let topic := hash e.sig
    match parseParametersWithRegistry fuel e.inputs true r with
    | (r', .error err) => (r', .error ("parsing inputs for event " ++ e.sig ++ ": " ++ err))
    | (r', .ok inputs) =>
      let eventStruct : StructDef := ⟨e.name ++ "Event", parametersToFields inputs⟩
      match parseEventsLoop fuel hash rest r' with
      | (r'', .error err) => (r'', .error err)
      | (r'', .ok evs) => (r'', .ok (⟨e.name, topic, inputs, eventStruct⟩ :: evs))

/-- `parseEventsWithRegistry` (the variant `parseContract` calls): it
returns the events in input (map-iteration) order, without sorting. -/
def parseEventsWithRegistry (fuel : Nat) (events : List AbiEvent)
    (hash : String → List Nat) (r : Registry) :
    Registry × Except String (List EventModel) :=
  parseEventsLoop fuel hash events r

def hexDigitChar (n : Nat) : Char :=
  if n < 10 then Char.ofNat (48 + n) else Char.ofNat (87 + n)

/-- Lowercase hex of a byte list (`common.Hash.Hex` without the `0x`). -/
def hexOfBytes (bs : List Nat) : List Char :=
  bs.foldr (fun b acc => hexDigitChar (b / 16) :: hexDigitChar (b % 16) :: acc) []

/-- The loop of `parseErrors`: the selector is computed locally as
`"0x" ++` the first 8 hex digits of the hash of the signature
(`BytesToHash(Keccak256(sig)).Hex()[:10]`); the method-identifier table is
not consulted.  Inputs use the registry-free `parseParameters`. -/
def parseErrorsLoop (fuel : Nat) (hash : String → List Nat) :
    List AbiError → Except String (List ContractErrorModel)
  | [] => .ok []
  | e :: rest =>
    let selector := "0x" ++ String.mk ((hexOfBytes (hash e.sig)).take 8)
    match parseParameters fuel e.inputs false with
    | .error err => .error ("parsing inputs for error " ++ e.sig ++ ": " ++ err)
    | .ok inputs =>
      let errorStruct : StructDef := ⟨e.name ++ "Error", parametersToFields inputs⟩
      match parseErrorsLoop fuel hash rest with
      | .error err => .error err
      | .ok es => .ok (⟨e.name, e.sig, selector, inputs, errorStruct⟩ :: es)

/-- The `sort.Slice` comparison of `parseErrors`: by `Name` only. -/
def errorLess (a b : ContractErrorModel) : Bool := strLt a.name b.name

/-- `parseErrors`: the loop above followed by the by-name sort. -/
def parseErrors (fuel : Nat) (errs : List AbiError) (hash : String → List Nat) :
    Except String (List ContractErrorModel) :=
  match parseErrorsLoop fuel hash errs with
  | .error e => .error e
  | .ok es => .ok (sortByLess errorLess es)

/-- The methods/events/errors/structs pipeline of `parseContract` (ABI JSON
loading, bytecode plumbing and the optional constructor are external
collaborators at the system boundary and are omitted): a fresh registry,
`parseMethodsWithRegistry`, `parseEventsWithRegistry`, `parseErrors`, then
`getAllStructs`; any error aborts the contract. -/
def parseContractCore (fuel : Nat) (methods : List AbiMethod)
    (events : List AbiEvent) (errorsAbi : List AbiError)
    (methodIds : List (String × String)) (hash : String → List Nat) :
    Except String ContractModel :=
  match parseMethodsWithRegistry fuel methods methodIds [] with
  | (_, .error e) => .error ("parsing methods: " ++ e)
  | (r1, .ok ms) =>
    match parseEventsWithRegistry fuel events hash r1 with
    | (_, .error e) => .error ("parsing events: " ++ e)
    | (r2, .ok evs) =>
      match parseErrors fuel errorsAbi hash with
      | .error e => .error ("parsing errors: " ++ e)
      | .ok errs => .ok ⟨ms, evs, errs, getAllStructs r2⟩

/-! ## Generated custom-error decoders (`errorDecodersTemplate`) -/

/-- The parameter types the error-decoder template instantiates
(`$input.Type.TypeName` with the signed flag for `*big.Int`); `unsupported`
stands for any other type name. -/
inductive ErrParamType where
  | bigSigned
  | bigUnsigned
  | u64
  | i64
  | boolT
  | addr
  | str
  | bytesT
  | unsupported (typeName : String)

/-- A decoded error-parameter value. -/
inductive ErrVal where
  | big (v : Int)
  | bigU (v : Nat)
  | u64v (v : Nat)
  | i64v (v : Int)
  | boolv (b : Bool)
  | addrv (bs : List Nat)
  | strv (bs : List Nat)
  | bytesv (bs : List Nat)
deriving DecidableEq

/-- The per-parameter decode sequence the template emits into `decodeImpl`:
fixed-width parameters check `len(errorData) >= offset+32`, decode the slice
`errorData[offset:offset+32]` and advance by 32; `string`/`[]byte` use the
dynamic `decodeString`/`decodeBytes` with the returned next offset; an
unsupported type is an error. -/
def decodeErrParamsLoop : List (String × ErrParamType) → List Nat → Nat →
    Except String (List ErrVal)
  | [], _, _ => .ok []
  | (pname, ty) :: rest, errorData, offset =>
    match ty with
    | .bigSigned =>
      if errorData.length < offset + 32 then
        .error ("insufficient data for error parameter " ++ pname)
      else
        match decodeInt256 ((errorData.drop offset).take 32) with
        | .error e => .error ("decoding error parameter " ++ pname ++ ": " ++ e)
        | .ok v =>
          match decodeErrParamsLoop rest errorData (offset + 32) with
          | .error e => .error e
          | .ok vs => .ok (.big v :: vs)
    | .bigUnsigned =>
      if errorData.length < offset + 32 then
        .error ("insufficient data for error parameter " ++ pname)
      else
        match decodeUint256 ((errorData.drop offset).take 32) with
        | .error e => .error ("decoding error parameter " ++ pname ++ ": " ++ e)
        | .ok v =>
          match decodeErrParamsLoop rest errorData (offset + 32) with
          | .error e => .error e
          | .ok vs => .ok (.bigU v :: vs)
    | .u64 =>
      if errorData.length < offset + 32 then
        .error ("insufficient data for error parameter " ++ pname)
      else
        match decodeUint64 ((errorData.drop offset).take 32) with
        | .error e => .error ("decoding error parameter " ++ pname ++ ": " ++ e)
        | .ok v =>
          match decodeErrParamsLoop rest errorData (offset + 32) with
          | .error e => .error e
          | .ok vs => .ok (.u64v v :: vs)
    | .i64 =>
      if errorData.length < offset + 32 then
        .error ("insufficient data for error parameter " ++ pname)
      else
        match decodeInt64 ((errorData.drop offset).take 32) with
        | .error e => .error ("decoding error parameter " ++ pname ++ ": " ++ e)
        | .ok v =>
          match decodeErrParamsLoop rest errorData (offset + 32) with
          | .error e => .error e
          | .ok vs => .ok (.i64v v :: vs)
    | .boolT =>
      if errorData.length < offset + 32 then
        .error ("insufficient data for error parameter " ++ pname)
      else
        match decodeBool ((errorData.drop offset).take 32) with
        | .error e => .error ("decoding error parameter " ++ pname ++ ": " ++ e)
        | .ok v =>
          match decodeErrParamsLoop rest errorData (offset + 32) with
          | .error e => .error e
          | .ok vs => .ok (.boolv v :: vs)
    | .addr =>
      if errorData.length < offset + 32 then
        .error ("insufficient data for error parameter " ++ pname)
      else
        match decodeAddress ((errorData.drop offset).take 32) with
        | .error e => .error ("decoding error parameter " ++ pname ++ ": " ++ e)
        | .ok v =>
          match decodeErrParamsLoop rest errorData (offset + 32) with
          | .error e => .error e
          | .ok vs => .ok (.addrv v :: vs)
    | .str =>
      match decodeString errorData offset with
      | .error e => .error ("decoding error parameter " ++ pname ++ ": " ++ e)
      | .ok (v, nextOffset) =>
        match decodeErrParamsLoop rest errorData nextOffset with
        | .error e => .error e
        | .ok vs => .ok (.strv v :: vs)
    | .bytesT =>
      match decodeBytes errorData offset with
      | .error e => .error ("decoding error parameter " ++ pname ++ ": " ++ e)
      | .ok (v, nextOffset) =>
        match decodeErrParamsLoop rest errorData nextOffset with
        | .error e => .error e
        | .ok vs => .ok (.bytesv v :: vs)
    | .unsupported tn => .error ("unsupported error parameter type: " ++ tn)

/-- `decodeImpl` of a generated `<Name>ErrorDecoder`: requires at least 4
bytes, then decodes the parameters from `errorData := data[4:]` starting at
offset 0.  The skipped 4 bytes are never compared with the decoder's own
selector. -/
def errorDecodeImpl (inputs : List (String × ErrParamType)) (data : List Nat) :
    Except String (List ErrVal) :=
  if data.length < 4 then .error "insufficient data for error selector"
  else decodeErrParamsLoop inputs (data.drop 4) 0

/-- `Decode` is `decodeImpl`. -/
def errorDecode (inputs : List (String × ErrParamType)) (data : List Nat) :
    Except String (List ErrVal) :=
  errorDecodeImpl inputs data

/-- `MustDecode` is `decodeImpl` with the error converted into a `panic`
(modelled as `none`). -/
def errorMustDecode (inputs : List (String × ErrParamType)) (data : List Nat) :
    Option (List ErrVal) :=
  (errorDecodeImpl inputs data).toOption

/-! ## Helper lemmas about the registry and the parse pipeline -/

theorem registerStruct_already (resolver : AbiType → Registry → Registry × Except String GoType)
    (r : Registry) (structName : String) (rawNames : List String) (elems : List AbiType)
    (h : (lookupStr structName r).isSome) :
    registerStruct resolver r structName rawNames elems = r := by
  unfold registerStruct
  by_cases h1 : structName = "" || structName = "AnonymousTuple"
  · rw [if_pos h1]
  · rw [if_neg h1, if_pos h]

theorem lookupStr_append_self {α : Type} (xs : List (String × α)) (k : String) (v : α) :
    (lookupStr k (xs ++ [(k, v)])).isSome := by
  induction xs with
  | nil => simp [lookupStr]
  | cons p rest ih =>
    rw [List.cons_append]
    unfold lookupStr
    by_cases h : k = p.1
    · simp [h]
    · simp only [h, if_neg]
      exact ih

/-- Registry inclusion: every registered name of `a` is registered in `b`. -/
def registryIncl (a b : Registry) : Prop :=
  ∀ k, (lookupStr k a).isSome → (lookupStr k b).isSome

theorem mapSolidityToGoTypeWithRegistry_zero (t : AbiType) (r : Registry) :
    mapSolidityToGoTypeWithRegistry 0 t r = (r, .error "recursion limit") := rfl

theorem mapSolidityToGoTypeWithRegistry_succ (fuel : Nat) (t : AbiType) (r : Registry) :
    mapSolidityToGoTypeWithRegistry (fuel + 1) t r =
      resolveStep (mapSolidityToGoTypeWithRegistry fuel) t r := rfl

/-- Stability of resolution: re-resolving the same descriptor against any
registry that already contains everything the first resolution registered
leaves that registry unchanged and returns the same result.  The tuple case
short-circuits on the already-present guard of `registerStruct`, so only the
slice/array cases recurse. -/
theorem resolveType_stable (fuel : Nat) :
    ∀ (t : AbiType) (r r₁ R : Registry) (res : Except String GoType),
      mapSolidityToGoTypeWithRegistry fuel t r = (r₁, res) →
      registryIncl r₁ R →
      mapSolidityToGoTypeWithRegistry fuel t R = (R, res) := by
  induction fuel with
  | zero =>
    intro t r r₁ R res h hsub
    rw [mapSolidityToGoTypeWithRegistry_zero] at h
    injection h with h1 h2
    subst h1; subst h2
    rfl
  | succ fuel ih =>
    intro t r r₁ R res h hsub
    rw [mapSolidityToGoTypeWithRegistry_succ] at h ⊢
    cases t with
    | sliceTy elem =>
      simp only [resolveStep] at h ⊢
      rcases hrec : mapSolidityToGoTypeWithRegistry fuel elem r with ⟨r', res'⟩
      rw [hrec] at h
      cases res' with
      | error e =>
        injection h with h1 h2
        subst h1; subst h2
        rw [ih elem r r' R (.error e) hrec hsub]
      | ok g =>
        injection h with h1 h2
        subst h1; subst h2
        rw [ih elem r r' R (.ok g) hrec hsub]
    | arrayTy size elem =>
      simp only [resolveStep] at h ⊢
      rcases hrec : mapSolidityToGoTypeWithRegistry fuel elem r with ⟨r', res'⟩
      rw [hrec] at h
      cases res' with
      | error e =>
        injection h with h1 h2
        subst h1; subst h2
        rw [ih elem r r' R (.error e) hrec hsub]
      | ok g =>
        injection h with h1 h2
        subst h1; subst h2
        rw [ih elem r r' R (.ok g) hrec hsub]
    | tupleTy rawName rawNames elems =>
      simp only [resolveStep] at h ⊢
      injection h with h1 h2
      subst h1
      subst h2
      have hreg : registerStruct (mapSolidityToGoTypeWithRegistry fuel) R
          (if extractStructName rawName = "" then "AnonymousTuple" else extractStructName rawName)
          rawNames elems = R := by
        set sn := if extractStructName rawName = "" then "AnonymousTuple" else extractStructName rawName with hsn
        by_cases hanon : sn = "" || sn = "AnonymousTuple"
        · unfold registerStruct
          rw [if_pos hanon]
        · apply registerStruct_already
          apply hsub
          unfold registerStruct
          rw [if_neg hanon]
          by_cases hpresent : (lookupStr sn r).isSome
          · rw [if_pos hpresent]
            exact hpresent
          · rw [if_neg hpresent]
            exact lookupStr_append_self _ sn _
      rw [hreg]
    | boolTy =>
      simp only [resolveStep] at h ⊢
      injection h with h1 h2
      subst h1; subst h2
      rfl
    | stringTy =>
      simp only [resolveStep] at h ⊢
      injection h with h1 h2
      subst h1; subst h2
      rfl
    | bytesTy =>
      simp only [resolveStep] at h ⊢
      injection h with h1 h2
      subst h1; subst h2
      rfl
    | addressTy =>
      simp only [resolveStep] at h ⊢
      injection h with h1 h2
      subst h1; subst h2
      rfl
    | hashTy =>
      simp only [resolveStep] at h ⊢
      injection h with h1 h2
      subst h1; subst h2
      rfl
    | uintTy size =>
      simp only [resolveStep] at h ⊢
      injection h with h1 h2
      subst h1; subst h2
      rfl
    | intTy size =>
      simp only [resolveStep] at h ⊢
      injection h with h1 h2
      subst h1; subst h2
      rfl
    | fixedBytesTy size =>
      simp only [resolveStep] at h ⊢
      injection h with h1 h2
      subst h1; subst h2
      rfl
    | functionTy =>
      simp only [resolveStep] at h ⊢
      injection h with h1 h2
      subst h1; subst h2
      rfl

/-- Any method whose signature is missing from the identifier table makes
the method loop fail. -/
theorem parseMethodsLoop_missing (fuel : Nat) (allMethods : List AbiMethod)
    (methodIds : List (String × String)) :
    ∀ (ms : List AbiMethod) (r : Registry) (m : AbiMethod),
      m ∈ ms → (lookupStr m.sig methodIds).getD "" = "" →
      exceptIsErr (parseMethodsLoop fuel allMethods methodIds ms r).2 = true := by
  intro ms
  induction ms with
  | nil =>
    intro r m hm
    cases hm
  | cons hd tl ih =>
    intro r m hm hmiss
    rcases List.mem_cons.mp hm with rfl | hmem
    · simp [parseMethodsLoop, hmiss, exceptIsErr]
    · simp only [parseMethodsLoop]
      split
      · simp [exceptIsErr]
      · split
        · simp [exceptIsErr]
        · rename_i pairIn rIn paramsIn heqIn
          split
          · simp [exceptIsErr]
          · rename_i pairOut rOut paramsOut heqOut
            split
            · simp [exceptIsErr]
            · rename_i pairRec rf ms2 hrec
              have hih := ih rOut m hmem hmiss
              rw [hrec] at hih
              simp [exceptIsErr] at hih

/-- The method loop depends on the identifier table only through the
signatures of the methods it processes. -/
theorem parseMethodsLoop_table_agree (fuel : Nat) (allMethods : List AbiMethod)
    (t₁ t₂ : List (String × String)) :
    ∀ (ms : List AbiMethod) (r : Registry),
      (∀ m ∈ ms, lookupStr m.sig t₁ = lookupStr m.sig t₂) →
      parseMethodsLoop fuel allMethods t₁ ms r = parseMethodsLoop fuel allMethods t₂ ms r := by
  intro ms
  induction ms with
  | nil => intro r _; rfl
  | cons hd tl ih =>
    intro r hagr
    have hhd : lookupStr hd.sig t₁ = lookupStr hd.sig t₂ :=
      hagr hd (List.mem_cons_self hd tl)
    have htl : ∀ m ∈ tl, lookupStr m.sig t₁ = lookupStr m.sig t₂ :=
      fun m hm => hagr m (List.mem_cons_of_mem hd hm)
    simp only [parseMethodsLoop, hhd]
    rcases h1 : parseParametersWithRegistry fuel hd.inputs false r with ⟨r1, res1⟩
    cases res1 with
    | error e => simp only [h1]
    | ok params1 =>
      simp only [h1]
      rcases h2 : parseParametersWithRegistry fuel hd.outputs false r1 with ⟨r2, res2⟩
      cases res2 with
      | error e => simp only [h2]
      | ok params2 =>
        simp only [h2]
        rw [ih r2 htl]

theorem parseContractCore_missing_method (fuel : Nat) (methods : List AbiMethod)
    (events : List AbiEvent) (errsAbi : List AbiError)
    (methodIds : List (String × String)) (hash : String → List Nat) (m : AbiMethod)
    (hm : m ∈ methods) (hmiss : (lookupStr m.sig methodIds).getD "" = "") :
    exceptIsErr (parseContractCore fuel methods events errsAbi methodIds hash) = true := by
  have hl := parseMethodsLoop_missing fuel methods methodIds methods [] m hm hmiss
  unfold parseContractCore parseMethodsWithRegistry
  rcases heq : parseMethodsLoop fuel methods methodIds methods [] with ⟨r', res⟩
  rw [heq] at hl
  cases res with
  | error e => simp only [heq]; simp [exceptIsErr]
  | ok ms => simp [exceptIsErr] at hl

theorem parseContractCore_table_agree (fuel : Nat) (methods : List AbiMethod)
    (events : List AbiEvent) (errsAbi : List AbiError)
    (t₁ t₂ : List (String × String)) (hash : String → List Nat)
    (hagr : ∀ m ∈ methods, lookupStr m.sig t₁ = lookupStr m.sig t₂) :
    parseContractCore fuel methods events errsAbi t₁ hash =
      parseContractCore fuel methods events errsAbi t₂ hash := by
  unfold parseContractCore parseMethodsWithRegistry
  rw [parseMethodsLoop_table_agree fuel methods t₁ t₂ methods [] hagr]

/-! ## Claim theorems -/

/-- C1: the claim says the functions, events, and errors lists of every
contract model are sorted deterministically on (name, signature).  The
events list is not: `parseEventsWithRegistry` (the variant `parseContract`
calls) returns events in map-iteration order, so the two iteration orders of
the same two-event contract produce the orderings `["B", "A"]` and
`["A", "B"]` — neither pass sorts them. -/
theorem claimC1_events_not_sorted :
    ((parseEventsWithRegistry 1 [⟨"B", "B()", []⟩, ⟨"A", "A()", []⟩]
        (fun _ => List.replicate 32 0) []).2.map
          (fun evs => evs.map (fun e => e.name))) = .ok ["B", "A"] ∧
    ((parseEventsWithRegistry 1 [⟨"A", "A()", []⟩, ⟨"B", "B()", []⟩]
        (fun _ => List.replicate 32 0) []).2.map
          (fun evs => evs.map (fun e => e.name))) = .ok ["A", "B"] := by
  decide

/-- C2: the claim says `decodeInt64` returns `x` exactly when the input is
the 256-bit sign extension of `x` and errors otherwise.  The code disagrees
twice on concrete inputs: the valid sign extension of `-2^33`
(`0xFF^24 ‖ FF FF FF FE 00 00 00 00`, whose 256-bit value is `2^256 - 2^33`)
decodes to `-2^32` because the sign-extension step ORs only the upper 32
bits, and the non-sign-extension input `0x00^24 ‖ 0xFF^8` (value `2^64 - 1`,
not representable in int64) decodes without error to `-1`. -/
theorem claimC2_decodeInt64_wrong_value :
    decodeInt64 (List.replicate 24 255 ++ [255, 255, 255, 254, 0, 0, 0, 0]) = .ok (-4294967296) ∧
    beToNat (List.replicate 24 255 ++ [255, 255, 255, 254, 0, 0, 0, 0]) = 2 ^ 256 - 2 ^ 33 ∧
    ((-4294967296 : Int) ≠ -8589934592) ∧
    decodeInt64 (List.replicate 24 0 ++ List.replicate 8 255) = .ok (-1) ∧
    beToNat (List.replicate 24 0 ++ List.replicate 8 255) = 2 ^ 64 - 1 := by
  decide

/-- C3 (amended): `encodeInt256` succeeds exactly for `|v| < 2^255`
(two's-complement encodings as the claim states them), and returns a hard
error for `2^255 ≤ |v|` — in particular for `v = -2^255`, which the original
claim wrongly includes in the accepted range. -/
theorem claimC3_encodeInt256_range (v : Int) :
    (v.natAbs < 2 ^ 255 →
      encodeInt256 v = .ok (natToBeBytes 32 (if 0 ≤ v then v.toNat else (2 ^ 256 + v).toNat))) ∧
    (2 ^ 255 ≤ v.natAbs → exceptIsErr (encodeInt256 v) = true) := by
  constructor
  · intro h
    exact encodeInt256_ok v h
  · intro h
    rw [encodeInt256_err v h]
    rfl

/-- C3 witness: the amended theorem applied at `v = -1` (encoded as
`2^256 - 1`) and at `v = 2^255` (rejected). -/
theorem claimC3_witness :
    ((-1 : Int).natAbs < 2 ^ 255 ∧
      encodeInt256 (-1) =
        .ok (natToBeBytes 32
          (if 0 ≤ (-1 : Int) then (-1 : Int).toNat else (2 ^ 256 + (-1) : Int).toNat))) ∧
    (2 ^ 255 ≤ ((2 : Int) ^ 255).natAbs ∧ exceptIsErr (encodeInt256 (2 ^ 255)) = true) :=
  ⟨⟨by norm_num, (claimC3_encodeInt256_range (-1)).1 (by norm_num)⟩,
   ⟨by norm_num, (claimC3_encodeInt256_range (2 ^ 255)).2 (by norm_num)⟩⟩

/-- C3 counterexample: `-2^255` is representable in 256-bit two's complement
but `encodeInt256` rejects it (`v.BitLen() >= 256` holds for `|v| = 2^255`),
refuting the claim that encoding succeeds for every `-2^255 ≤ v`. -/
theorem claimC3_counterexample : exceptIsErr (encodeInt256 (-(2 ^ 255))) = true := by
  have habs : ((-(2 ^ 255) : Int)).natAbs = 2 ^ 255 := by
    rw [Int.natAbs_neg]
    rw [show ((2 : Int) ^ 255) = ((2 ^ 255 : Nat) : Int) by push_cast; try rfl]
    exact Int.natAbs_ofNat _
  rw [encodeInt256_err _ (by rw [habs])]
  rfl

/-- C4: the claim says the over-50-character fallback name is the base name,
`"__"`, and all 8 hex characters of the selector.  On the pipeline the
selector looked up from the identifier table has no `0x` marker, and
`generateOverloadName` still strips two characters (`selector[2:]`), so for
the table entry `a9059cbb` the assigned name ends in `__059cbb` — only the
last 6 hex digits — and the name with all 8 digits is not assigned. -/
theorem claimC4_overload_fallback :
    ((parseMethodsWithRegistry 2
      [⟨"superduperextralongbasefunctionname", "superduperextralongbasefunctionname()", [], []⟩,
       ⟨"superduperextralongbasefunctionname", "superduperextralongbasefunctionname(uint256,uint256)",
         [⟨"", .uintTy 256, false⟩, ⟨"", .uintTy 256, false⟩], []⟩]
      [("superduperextralongbasefunctionname()", "deadbeef"),
       ("superduperextralongbasefunctionname(uint256,uint256)", "a9059cbb")] []).2.map
        (fun ms => ms.map (fun m => m.name))) =
      .ok ["superduperextralongbasefunctionname_NoArgs",
           "superduperextralongbasefunctionname__059cbb"] ∧
    "superduperextralongbasefunctionname__a9059cbb" ∉
      ["superduperextralongbasefunctionname_NoArgs",
       "superduperextralongbasefunctionname__059cbb"] := by
  decide

/-- C5 (amended): every function's canonical signature must have an entry in
the externally supplied method-identifier table — a missing entry fails the
whole contract parse — but custom errors are never validated against that
table: the result of parsing depends on the table only through the method
signatures, so adding or removing error signatures from the table changes
nothing, and a contract whose errors have no table entry still parses. -/
theorem claimC5_selector_validation :
    (∀ (fuel : Nat) (methods : List AbiMethod) (events : List AbiEvent)
        (errsAbi : List AbiError) (methodIds : List (String × String))
        (hash : String → List Nat) (m : AbiMethod),
      m ∈ methods → (lookupStr m.sig methodIds).getD "" = "" →
      exceptIsErr (parseContractCore fuel methods events errsAbi methodIds hash) = true) ∧
    (∀ (fuel : Nat) (methods : List AbiMethod) (events : List AbiEvent)
        (errsAbi : List AbiError) (t₁ t₂ : List (String × String))
        (hash : String → List Nat),
      (∀ m ∈ methods, lookupStr m.sig t₁ = lookupStr m.sig t₂) →
      parseContractCore fuel methods events errsAbi t₁ hash =
        parseContractCore fuel methods events errsAbi t₂ hash) :=
  ⟨fun fuel methods events errsAbi methodIds hash m hm hmiss =>
      parseContractCore_missing_method fuel methods events errsAbi methodIds hash m hm hmiss,
   fun fuel methods events errsAbi t₁ t₂ hash hagr =>
      parseContractCore_table_agree fuel methods events errsAbi t₁ t₂ hash hagr⟩

/-- C5 witness: a contract with one method whose signature is missing from
an empty table fails to parse; a contract with one custom error parses to
the same model whether or not the table carries that error's signature. -/
theorem claimC5_witness :
    ((⟨"bar", "bar()", [], []⟩ : AbiMethod) ∈ [(⟨"bar", "bar()", [], []⟩ : AbiMethod)] ∧
      (lookupStr "bar()" ([] : List (String × String))).getD "" = "" ∧
      exceptIsErr (parseContractCore 1 [⟨"bar", "bar()", [], []⟩] [] [] []
        (fun _ => List.replicate 32 0)) = true) ∧
    parseContractCore 1 [] [] [⟨"Unauthorized", "Unauthorized()", []⟩]
        [("Unauthorized()", "deadbeef")] (fun _ => List.replicate 32 0) =
      parseContractCore 1 [] [] [⟨"Unauthorized", "Unauthorized()", []⟩]
        [] (fun _ => List.replicate 32 0) :=
  ⟨⟨List.mem_cons_self _ _, rfl,
     claimC5_selector_validation.1 1 _ [] [] [] _ _ (List.mem_cons_self _ _) rfl⟩,
   claimC5_selector_validation.2 1 [] [] _ _ [] _
     (fun m hm => absurd hm (List.not_mem_nil m))⟩

/-- C5 counterexample: the claim as stated requires a contract whose custom
error has no entry in the supplied table to fail; with an empty table and
one error, the parse succeeds. -/
theorem claimC5_counterexample :
    exceptIsOk (parseContractCore 1 [] [] [⟨"Unauthorized", "Unauthorized()", []⟩] []
      (fun _ => List.replicate 32 0)) = true := by
  decide

/-- C6 (amended): `decodeInt256 ∘ encodeInt256` is the identity on
`-2^255 < x < 2^255` (the original claim also includes `x = -2^255`, which
`encodeInt256` rejects), and encoding `-1` yields 32 `0xFF` bytes. -/
theorem claimC6_roundtrip :
    (∀ x : Int, -(2 ^ 255) < x → x < 2 ^ 255 →
      (encodeInt256 x).bind decodeInt256 = .ok x) ∧
    encodeInt256 (-1) = .ok (List.replicate 32 255) := by
  constructor
  · exact encode_decode_int256
  · have h1 : encodeInt256 (-1) = .ok (natToBeBytes 32 ((2 ^ 256 + (-1) : Int)).toNat) := by
      have h0 := encodeInt256_ok (-1) (by norm_num)
      rw [if_neg (by norm_num)] at h0
      exact h0
    rw [h1]
    have hp : ((2 : Int)) ^ 256 = ((2 ^ 256 : Nat) : Int) := by push_cast; try rfl
    have h2 : ((2 : Int) ^ 256 + (-1)).toNat = 256 ^ 32 - 1 := by
      rw [hp, pow256_32]
      omega
    rw [h2, natToBeBytes_all_ff]

/-- C6 witness: the round trip at `x = -987654321`. -/
theorem claimC6_witness :
    (-(2 ^ 255) < (-987654321 : Int) ∧ (-987654321 : Int) < 2 ^ 255) ∧
    (encodeInt256 (-987654321)).bind decodeInt256 = .ok (-987654321) :=
  ⟨⟨by norm_num, by norm_num⟩,
   claimC6_roundtrip.1 (-987654321) (by norm_num) (by norm_num)⟩

/-- C6 counterexample: at `x = -2^255`, which is representable in 256-bit
two's complement, `encodeInt256` fails, so `decodeInt256 (encodeInt256 x)`
cannot return `x` there, refuting the original claim's range. -/
theorem claimC6_counterexample : exceptIsOk (encodeInt256 (-(2 ^ 255))) = false := by
  have habs : ((-(2 ^ 255) : Int)).natAbs = 2 ^ 255 := by
    rw [Int.natAbs_neg]
    rw [show ((2 : Int) ^ 255) = ((2 ^ 255 : Nat) : Int) by push_cast; try rfl]
    exact Int.natAbs_ofNat _
  rw [encodeInt256_err _ (by rw [habs])]
  rfl

/-- C7: every fixed-width decode helper rejects a buffer shorter than 32
bytes with an error; no truncated or garbage value is produced. -/
theorem claimC7_short_buffer (data : List Nat) (size : Nat) (h : data.length < 32) :
    exceptIsErr (decodeUint256 data) = true ∧
    exceptIsErr (decodeInt256 data) = true ∧
    exceptIsErr (decodeAddress data) = true ∧
    exceptIsErr (decodeBool data) = true ∧
    exceptIsErr (decodeHash data) = true ∧
    exceptIsErr (decodeFixedBytes data size) = true ∧
    exceptIsErr (decodeUint8 data) = true ∧
    exceptIsErr (decodeUint16 data) = true ∧
    exceptIsErr (decodeUint32 data) = true ∧
    exceptIsErr (decodeUint64 data) = true ∧
    exceptIsErr (decodeInt64 data) = true := by
  refine ⟨?_, ?_, ?_, ?_, ?_, ?_, ?_, ?_, ?_, ?_, ?_⟩ <;>
    simp [decodeUint256, decodeInt256, decodeAddress, decodeBool, decodeHash,
      decodeFixedBytes, decodeUint8, decodeUint16, decodeUint32, decodeUint64,
      decodeInt64, h, exceptIsErr]

/-- C7 witness: the empty buffer. -/
theorem claimC7_witness :
    ([] : List Nat).length < 32 ∧
    (exceptIsErr (decodeUint256 ([] : List Nat)) = true ∧
     exceptIsErr (decodeInt256 ([] : List Nat)) = true ∧
     exceptIsErr (decodeAddress ([] : List Nat)) = true ∧
     exceptIsErr (decodeBool ([] : List Nat)) = true ∧
     exceptIsErr (decodeHash ([] : List Nat)) = true ∧
     exceptIsErr (decodeFixedBytes ([] : List Nat) 0) = true ∧
     exceptIsErr (decodeUint8 ([] : List Nat)) = true ∧
     exceptIsErr (decodeUint16 ([] : List Nat)) = true ∧
     exceptIsErr (decodeUint32 ([] : List Nat)) = true ∧
     exceptIsErr (decodeUint64 ([] : List Nat)) = true ∧
     exceptIsErr (decodeInt64 ([] : List Nat)) = true) :=
  ⟨by decide, claimC7_short_buffer [] 0 (by decide)⟩

/-- C8: two functions sharing the base name `foo` as `foo()` and
`foo(uint256)` are assigned `foo_NoArgs` and `foo_Uint256` respectively by
the pipeline (the schema loader presents both under their declared base
name, per the system boundary), and the namer itself maps the two
signatures to those names; neither keeps the bare `foo`. -/
theorem claimC8_overload_names :
    ((parseMethodsWithRegistry 5
      [⟨"foo", "foo()", [], []⟩,
       ⟨"foo", "foo(uint256)", [⟨"", .uintTy 256, false⟩], []⟩]
      [("foo()", "12345678"), ("foo(uint256)", "2fbebd38")] []).2.map
        (fun ms => ms.map (fun m => (m.name, m.signature)))) =
      .ok [("foo_NoArgs", "foo()"), ("foo_Uint256", "foo(uint256)")] ∧
    generateOverloadName "foo" "foo()" "12345678" = "foo_NoArgs" ∧
    generateOverloadName "foo" "foo(uint256)" "2fbebd38" = "foo_Uint256" := by
  decide

/-- C9: struct registration is idempotent — registering a name already in
the registry leaves it unchanged — and resolving the same composite
descriptor a second time (against the registry resulting from the first
resolution) returns the same Go type and the unchanged registry, for every
recursion fuel. -/
theorem claimC9_idempotent_registration :
    (∀ (resolver : AbiType → Registry → Registry × Except String GoType)
        (r : Registry) (structName : String) (rawNames : List String)
        (elems : List AbiType),
      (lookupStr structName r).isSome →
      registerStruct resolver r structName rawNames elems = r) ∧
    (∀ (fuel : Nat) (t : AbiType) (r r₁ : Registry) (res : Except String GoType),
      mapSolidityToGoTypeWithRegistry fuel t r = (r₁, res) →
      mapSolidityToGoTypeWithRegistry fuel t r₁ = (r₁, res)) :=
  ⟨fun resolver r structName rawNames elems h =>
      registerStruct_already resolver r structName rawNames elems h,
   fun fuel t r r₁ res h =>
      resolveType_stable fuel t r r₁ r₁ res h (fun _ hk => hk)⟩

/-- C9 witness: re-registering the present name `User` is a no-op, and the
tuple `struct Test.User { uint256 id }` resolves twice to the same type
without duplicating its registry entry. -/
theorem claimC9_witness :
    ((lookupStr "User" [("User", (⟨"User", []⟩ : StructDef))]).isSome ∧
      registerStruct (mapSolidityToGoTypeWithRegistry 1)
          [("User", ⟨"User", []⟩)] "User" [] [] = [("User", ⟨"User", []⟩)]) ∧
    (mapSolidityToGoTypeWithRegistry 3 (.tupleTy "struct Test.User" ["id"] [.uintTy 256]) [] =
        ([("User", ⟨"User", [⟨"Id", GoTypeBigInt, "id"⟩]⟩)], .ok ⟨"", "User", false, false⟩) ∧
      mapSolidityToGoTypeWithRegistry 3 (.tupleTy "struct Test.User" ["id"] [.uintTy 256])
          [("User", ⟨"User", [⟨"Id", GoTypeBigInt, "id"⟩]⟩)] =
        ([("User", ⟨"User", [⟨"Id", GoTypeBigInt, "id"⟩]⟩)], .ok ⟨"", "User", false, false⟩)) :=
  ⟨⟨by decide, claimC9_idempotent_registration.1 (mapSolidityToGoTypeWithRegistry 1)
      [("User", ⟨"User", []⟩)] "User" [] [] (by decide)⟩,
   ⟨by decide, claimC9_idempotent_registration.2 3
      (.tupleTy "struct Test.User" ["id"] [.uintTy 256]) []
      [("User", ⟨"User", [⟨"Id", GoTypeBigInt, "id"⟩]⟩)]
      (.ok ⟨"", "User", false, false⟩) (by decide)⟩⟩

/-- C10: the result of a generated error decoder's `Decode`/`MustDecode` is
independent of the first 4 bytes of the input — the selector prefix is
skipped, never compared — so any two inputs of length at least 4 that agree
after the prefix decode identically. -/
theorem claimC10_selector_independence (inputs : List (String × ErrParamType))
    (d₁ d₂ : List Nat) (h₁ : 4 ≤ d₁.length) (h₂ : 4 ≤ d₂.length)
    (heq : d₁.drop 4 = d₂.drop 4) :
    errorDecode inputs d₁ = errorDecode inputs d₂ ∧
    errorMustDecode inputs d₁ = errorMustDecode inputs d₂ := by
  have himpl : errorDecodeImpl inputs d₁ = errorDecodeImpl inputs d₂ := by
    unfold errorDecodeImpl
    rw [if_neg (by omega), if_neg (by omega), heq]
  exact ⟨himpl, by unfold errorMustDecode; rw [himpl]⟩

/-- C10 witness: a one-parameter `bool` decoder on the correct selector and
on a wrong (different error's) selector, with identical payloads. -/
theorem claimC10_witness :
    (4 ≤ ([0, 0, 0, 0] ++ (List.replicate 31 0 ++ [1])).length ∧
     4 ≤ ([222, 173, 190, 239] ++ (List.replicate 31 0 ++ [1])).length ∧
     ([0, 0, 0, 0] ++ (List.replicate 31 0 ++ [1])).drop 4 =
       ([222, 173, 190, 239] ++ (List.replicate 31 0 ++ [1])).drop 4) ∧
    (errorDecode [("flag", .boolT)] ([0, 0, 0, 0] ++ (List.replicate 31 0 ++ [1])) =
       errorDecode [("flag", .boolT)] ([222, 173, 190, 239] ++ (List.replicate 31 0 ++ [1])) ∧
     errorMustDecode [("flag", .boolT)] ([0, 0, 0, 0] ++ (List.replicate 31 0 ++ [1])) =
       errorMustDecode [("flag", .boolT)] ([222, 173, 190, 239] ++ (List.replicate 31 0 ++ [1]))) :=
  ⟨⟨by decide, by decide, by decide⟩,
   claimC10_selector_independence [("flag", .boolT)] _ _ (by decide) (by decide) (by decide)⟩
